import Mathlib

/-!
Verification development for the reeltube-cli multipart upload engine.

Shallow embedding of:
- `main.go` — the `upload` command (file validation, lines 118-200), the
  `multipartUpload` worker pool (lines 215-341), part geometry (lines 252-285),
  progress/ETA rendering (lines 309-312);
- `client.go` — `Client.DoRequest` (lines 60-131), `Client.CreateMediaUpload`
  (lines 186-197), `Client.CompleteMultipartUpload` (lines 209-221).

Modelling conventions: Go `int` values that hold sizes, counts, offsets and
HTTP status codes are modelled as `Nat` (they are nonnegative in every
reachable state of the claims under study; no overflow is reachable at
realistic file sizes). File/network I/O is abstracted by oracle parameters:
each part's transfer attempt has an environment-chosen `TransferResult`, and
each control-plane call has an environment-chosen `HTTPExchange`. Control and
data flow between those points is translated directly from the source.
-/

namespace ReelTube

/-- Go `json.RawMessage` holding an ETag header value (main.go line 305). -/
abbrev ETag := String

/-- `type Part struct { PartNumber int; ETag json.RawMessage }` (main.go lines 202-205). -/
structure Part where
  partNumber : Nat
  etag : ETag
deriving DecidableEq, Repr

/-- The Go zero value of `Part`, as produced by `make([]Part, n)` (main.go line 239). -/
def defaultPart : Part := { partNumber := 0, etag := "" }

/-- `type MediaUpload struct { ID string }` (client.go lines 174-176). -/
structure MediaUpload where
  id : String
deriving DecidableEq, Repr

/-- `type CreateMediaUploadResponse struct {...}` (client.go lines 178-184). -/
structure CreateMediaUploadResponse where
  uploadID : String
  partSize : Nat
  numParts : Nat
  presignedURLs : List String
  mediaUpload : MediaUpload
deriving DecidableEq, Repr

/-- The Go zero value of `CreateMediaUploadResponse`: the value of the local
`var data CreateMediaUploadResponse` before any JSON is unmarshalled into it
(client.go line 187 and line 210). -/
def zeroCreateMediaUploadResponse : CreateMediaUploadResponse :=
  { uploadID := "", partSize := 0, numParts := 0, presignedURLs := [], mediaUpload := { id := "" } }

/-!
## Control-plane HTTP client (client.go)

A control-plane exchange is abstracted as the environment's answer to one
`httpClient.Do` call: either a transport error, or a response with a status
code and a body. The body is classified by which Go JSON decodings succeed on
it: a JSON-encoded string decodes into `apiResponse.Error` (a Go `string`,
client.go line 103) and not into a struct; a JSON object for
`CreateMediaUploadResponse` unmarshals into the `target` struct (client.go
line 124) and not into a string; anything else decodes as neither.
-/

/-- Classification of a control-plane response body by JSON decodability. -/
inductive HTTPBody where
  /-- A JSON-encoded string, e.g. `"internal error"`. -/
  | jsonString (s : String)
  /-- A JSON object unmarshalling into `CreateMediaUploadResponse`. -/
  | jsonUploadResp (r : CreateMediaUploadResponse)
  /-- A body that decodes neither as a string nor as the target struct
  (e.g. empty body, malformed JSON). -/
  | malformed (raw : String)
deriving DecidableEq, Repr

/-- The environment's answer to one `c.httpClient.Do(req)` call (client.go line 87). -/
inductive HTTPExchange where
  | transportError (msg : String)
  | response (status : Nat) (body : HTTPBody)
deriving DecidableEq, Repr

/-- `type APIResponse struct { Data interface{}; Error string; Status int }`
(client.go lines 50-54); `Data` is carried separately as the decoded target. -/
structure APIResponse where
  error : String
  status : Nat
deriving DecidableEq, Repr

/-- `Client.DoRequest` (client.go lines 60-131), with debug mode off, for calls
whose `target` is a `CreateMediaUploadResponse` (both `CreateMediaUpload` and
`CompleteMultipartUpload` decode into that struct type). Returns the
`(*APIResponse, error)` pair together with the final value of the caller's
`target` variable: the target is only written by `json.Unmarshal` on the
success path (client.go line 124), so on the non-2xx path it keeps its zero
value. On a non-2xx status whose body decodes as a JSON string, the function
returns the `APIResponse` with a nil error (client.go lines 101-107). -/
def doRequest (ex : HTTPExchange) : Except String (APIResponse × CreateMediaUploadResponse) :=
  match ex with
  | .transportError m => .error m
  | .response status body =>
    if status < 200 ∨ 300 ≤ status then
      match body with
      | .jsonString s => .ok ({ error := s, status := status }, zeroCreateMediaUploadResponse)
      | _ => .error "API error: error body not decodable"
    else
      match body with
      | .jsonUploadResp r => .ok ({ error := "", status := status }, r)
      | _ => .error "response body not unmarshallable into target"

/-- `Client.CreateMediaUpload` (client.go lines 186-197): posts and returns
`&data` whenever `DoRequest` reported a nil error, never inspecting the
returned `APIResponse.Status` or `.Error`. -/
def clientCreateMediaUpload (ex : HTTPExchange) : Except String CreateMediaUploadResponse :=
  match doRequest ex with
  | .error e => .error e
  | .ok pair => .ok pair.2

/-- `Client.CompleteMultipartUpload` (client.go lines 209-221): posts the part
manifest and returns nil exactly when `DoRequest` reported a nil error, never
inspecting the returned `APIResponse.Status` or `.Error`. -/
def clientCompleteMultipartUpload (ex : HTTPExchange) : Except String Unit :=
  match doRequest ex with
  | .error e => .error e
  | .ok _ => .ok ()

/-!
## Part geometry (main.go worker loop, lines 252-285)
-/

/-- `partOffset := partNum * partSize` (main.go line 254). -/
def partOffset (partSize partNum : Nat) : Nat := partNum * partSize

/-- `readSize := partSize; if partOffset+partSize > int(fileSize) { readSize = int(fileSize) - partOffset }`
(main.go lines 272-275). -/
def readSize (fileSize partSize partNum : Nat) : Nat :=
  if partOffset partSize partNum + partSize > fileSize then
    fileSize - partOffset partSize partNum
  else
    partSize

/-- Number of bytes `file.Read(buffer[:readSize])` returns for a regular file
of size `fileSize` positioned at `offset` (main.go line 277): a read of a
local regular file returns `min requested (fileSize - offset)` bytes. -/
def fileReadLen (fileSize offset requested : Nat) : Nat :=
  min requested (fileSize - offset)

/-!
## Worker pool (main.go lines 236-332)

The body of one loop iteration of a worker (lines 252-313) performs file I/O
and one HTTP PUT; the environment's combined answer for part `i` is a
`TransferResult`. The control flow applied to that answer — which error is
pushed onto `errChan`, and what is written into `parts[partNum]` on success —
is translated below in `attemptPart`.
-/

/-- The environment's outcome for one part-transfer attempt: the first failing
step among open/seek/read/request-construction/transport, or the HTTP response
(status code and `ETag` header value) if the PUT completed. -/
inductive TransferResult where
  | openError (msg : String)
  | seekError (msg : String)
  | readError (msg : String)
  | requestError (msg : String)
  | transportError (msg : String)
  | response (status : Nat) (etag : ETag)
deriving DecidableEq, Repr

/-- The errors a worker pushes onto `errChan`, one constructor per
`fmt.Errorf` site in the worker body (main.go lines 260, 267, 280, 287, 293, 299). -/
inductive PartError where
  | openFailed (cause : String)
  | seekFailed (partNum : Nat) (cause : String)
  | readFailed (partNum : Nat) (cause : String)
  | putRequestFailed (partNum : Nat) (cause : String)
  | uploadFailed (partNum : Nat) (cause : String)
  | nonOkStatus (partNum : Nat) (status : Nat)
deriving DecidableEq, Repr

/-- One worker-loop iteration for part `partNum` (main.go lines 252-306): maps
the environment's `TransferResult` to either the `PartError` pushed onto
`errChan`, or the `Part` value written into `parts[partNum]`. The success test
is `resp.StatusCode != http.StatusOK` (line 298), i.e. exactly 200; on success
the recorded part is `Part{PartNumber: partNum + 1, ETag: resp.Header.Get("ETag")}`
(lines 303-306). -/
def attemptPart (tr : TransferResult) (partNum : Nat) : Except PartError Part :=
  match tr with
  | .openError m => .error (.openFailed m)
  | .seekError m => .error (.seekFailed partNum m)
  | .readError m => .error (.readFailed partNum m)
  | .requestError m => .error (.putRequestFailed partNum m)
  | .transportError m => .error (.uploadFailed partNum m)
  | .response status etag =>
    if status ≠ 200 then .error (.nonOkStatus partNum status)
    else .ok { partNumber := partNum + 1, etag := etag }

/-- Whether the attempt for part `partNum` takes the success branch. -/
def attemptOk (tr : TransferResult) (partNum : Nat) : Bool :=
  match attemptPart tr partNum with
  | .ok _ => true
  | .error _ => false

/-- The error a failing attempt pushes onto `errChan`, if any. -/
def errOf (transfer : Nat → TransferResult) (partNum : Nat) : Option PartError :=
  match attemptPart (transfer partNum) partNum with
  | .ok _ => none
  | .error e => some e

/-- The part value a successful attempt writes into `parts[partNum]`, if any. -/
def okPartOpt (transfer : Nat → TransferResult) (partNum : Nat) : Option Part :=
  match attemptPart (transfer partNum) partNum with
  | .ok p => some p
  | .error _ => none

/-- Effect of one completed part attempt on the shared state
`(parts slice, errChan contents)`: a success writes `parts[partNum]`
(main.go lines 303-306), a failure appends its error to the FIFO channel
(the various `errChan <- ...` sends). -/
def stepPart (transfer : Nat → TransferResult) (acc : List Part × List PartError)
    (partNum : Nat) : List Part × List PartError :=
  match attemptPart (transfer partNum) partNum with
  | .ok p => (acc.1.set partNum p, acc.2)
  | .error e => (acc.1, acc.2 ++ [e])

/-- Folds a sequence of completed part attempts over the shared state. -/
def applyEvents (transfer : Nat → TransferResult) (acc : List Part × List PartError)
    (events : List Nat) : List Part × List PartError :=
  events.foldl (stepPart transfer) acc

/-- One scheduled execution of the worker pool of `multipartUpload`:
`resp` is the negotiation response whose fields the pool reads (main.go
lines 230-234), `transfer` is the environment's outcome for each part, and
`events` is the order in which part attempts complete across the concurrent
workers (each dispatched part index appears at most once; `errChan` is FIFO,
so errors are drained in completion order). -/
structure Run where
  resp : CreateMediaUploadResponse
  transfer : Nat → TransferResult
  events : List Nat

/-- Which schedules are executions the Go program can produce:
each part index completes at most once and comes from the dispatched range
`[0, numParts)` (main.go lines 318-320); the accesses `presignedURLs[partNum]`
and `parts[partNum]` stay in bounds (an out-of-bounds access panics instead of
returning — that regime is treated separately); and since a worker only stops
early by returning on a failure, a schedule in which every completed attempt
succeeded has completed every dispatched part. -/
def Run.Valid (r : Run) : Prop :=
  r.events.Nodup ∧
  (∀ i ∈ r.events, i < r.resp.numParts) ∧
  r.resp.numParts ≤ r.resp.presignedURLs.length ∧
  ((∀ i ∈ r.events, attemptOk (r.transfer i) i = true) → ∀ i < r.resp.numParts, i ∈ r.events)

instance (r : Run) : Decidable r.Valid := by
  unfold Run.Valid
  infer_instance

/-- The worker-pool phase of `multipartUpload` (main.go lines 237-324): the
`parts` slice is created as `make([]Part, len(presignedURLs))` (line 239), the
error channel starts empty, and the completed attempts of the schedule are
applied. Returns the final `(parts, drained errChan)` state. -/
def runWorkerPhase (r : Run) : List Part × List PartError :=
  applyEvents r.transfer
    (List.replicate r.resp.presignedURLs.length defaultPart, []) r.events

/-- Errors produced by `multipartUpload` after a successful negotiation:
either a part error returned directly from draining `errChan` (main.go
lines 328-332), or a wrapped finalization error (lines 335-338). -/
inductive UploadError where
  | partFailed (e : PartError)
  | finalizeFailed (cause : String)
deriving DecidableEq, Repr

instance {ε α : Type} [DecidableEq ε] [DecidableEq α] : DecidableEq (Except ε α) :=
  fun x y =>
  match x, y with
  | .ok a, .ok b => if h : a = b then .isTrue (by rw [h]) else .isFalse (by simp [h])
  | .error a, .error b => if h : a = b then .isTrue (by rw [h]) else .isFalse (by simp [h])
  | .ok _, .error _ => .isFalse (by simp)
  | .error _, .ok _ => .isFalse (by simp)

/-- Outcome of `multipartUpload`: its returned error value, plus the argument
`completeMultipartUpload` was called with (`none` when it was never called). -/
structure UploadResult where
  result : Except UploadError Unit
  finalizeCalledWith : Option (List Part)
deriving DecidableEq, Repr

/-- `multipartUpload` after negotiation succeeded (main.go lines 236-341):
run the worker pool, drain the FIFO error channel and return its first entry
if any (lines 328-332, reached only after `wg.Wait()`), otherwise call
`completeMultipartUpload` exactly once with the `parts` slice (line 335);
`finalizeOutcome` is the environment's answer to that call. -/
def multipartUploadRun (r : Run) (finalizeOutcome : List Part → Except String Unit) :
    UploadResult :=
  match (runWorkerPhase r).2.head? with
  | some e => { result := .error (.partFailed e), finalizeCalledWith := none }
  | none =>
    match finalizeOutcome (runWorkerPhase r).1 with
    | .ok _ => { result := .ok (), finalizeCalledWith := some (runWorkerPhase r).1 }
    | .error m =>
      { result := .error (.finalizeFailed m), finalizeCalledWith := some (runWorkerPhase r).1 }

/-- The ETag carried by a transfer outcome that produced an HTTP response. -/
def tokenOf : TransferResult → ETag
  | .response _ e => e
  | _ => ""

/-!
## File inspection (main.go uploadCmd, lines 118-200)
-/

/-- `allowedExtensions` (main.go lines 123-126), as the list of keys mapped to true. -/
def allowedExtensions : List String :=
  [".jpg", ".jpeg", ".png", ".gif", ".mp4", ".mov", ".avi", ".mkv"]

/-- `allowedMIMEs` (main.go lines 127-130), as the list of keys mapped to true. -/
def allowedMIMEs : List String :=
  ["image/jpeg", "image/png", "image/gif",
   "video/mp4", "video/quicktime", "video/x-msvideo", "video/x-matroska"]

/-- Go's `strings.ToLower` applied to the extension (main.go line 154),
embedded as per-character lowering; on ASCII extension strings this agrees
with Go's Unicode-aware lowering. -/
def toLowerGo (s : String) : String := String.mk (s.data.map Char.toLower)

/-- The local file the upload command inspects: its extension as returned by
`filepath.Ext(absPath)`, its size in bytes, and the MIME type
`http.DetectContentType` reports for its first 512 bytes (an oracle for the
content-sniffing algorithm applied to this file's bytes). -/
structure FileEnv where
  rawExt : String
  size : Nat
  sniffed : String

/-- `file.Read(buffer)` with a 512-byte buffer on a freshly opened regular
file (main.go lines 169-170): on an empty file the read returns `(0, io.EOF)`,
a non-nil error; otherwise it returns `(min size 512, nil)` — a read of a
nonempty local regular file at offset 0 returns the available bytes with a
nil error, deferring `io.EOF` to the next call. -/
def fileRead512 (size : Nat) : Except String Nat :=
  if size = 0 then .error "EOF" else .ok (min size 512)

/-- `mimeType := mime.TypeByExtension(ext); if mimeType == "" { mimeType = http.DetectContentType(buffer) }`
(main.go lines 175-178). `typeByExt` is an oracle for Go's
`mime.TypeByExtension` table (platform-dependent; empty string means no
mapping), `sniffed` the content-sniff result for this file's first 512 bytes. -/
def resolveMime (typeByExt : String → String) (ext sniffed : String) : String :=
  if typeByExt ext = "" then sniffed else typeByExt ext

/-- Validation errors of the upload command, one per `os.Exit(1)` site of the
pre-upload checks (main.go lines 135-182); `uploadFailed` is the post-upload
failure path (lines 193-197). -/
inductive CmdError where
  | fileNotExist
  | extNotAllowed (ext : String)
  | readFailed (msg : String)
  | mimeNotAllowed (mimeType : String)
  | uploadFailed (e : UploadError)
deriving DecidableEq, Repr

/-- The local validation sequence of `uploadCmd` (main.go lines 147-182):
stat-existence check, lowercased-extension allow-list check (line 154-158),
512-byte read (lines 169-174), then MIME resolution and allow-list check
(lines 175-182). `present` is whether `os.Stat` finds the file; opening an
existing regular file is assumed to succeed. Returns the accepted MIME type. -/
def validateFile (typeByExt : String → String) (present : Bool) (env : FileEnv) :
    Except CmdError String :=
  if present = false then .error .fileNotExist
  else
    if allowedExtensions.contains (toLowerGo env.rawExt) = false then
      .error (.extNotAllowed (toLowerGo env.rawExt))
    else
      match fileRead512 env.size with
      | .error m => .error (.readFailed m)
      | .ok _ =>
        if allowedMIMEs.contains (resolveMime typeByExt (toLowerGo env.rawExt) env.sniffed) = false then
          .error (.mimeNotAllowed (resolveMime typeByExt (toLowerGo env.rawExt) env.sniffed))
        else .ok (resolveMime typeByExt (toLowerGo env.rawExt) env.sniffed)

/-- The upload command end to end (main.go lines 121-199): local validation,
then `multipartUpload` (line 193) on success. The second component records
whether the control plane was contacted: `multipartUpload`'s first network
operation, `createMediaUpload`, is attempted exactly when local validation
passed — every validation failure calls `os.Exit(1)` first. -/
def uploadCmdRun (typeByExt : String → String) (present : Bool) (env : FileEnv)
    (r : Run) (finalizeOutcome : List Part → Except String Unit) :
    Except CmdError Unit × Bool :=
  match validateFile typeByExt present env with
  | .error e => (.error e, false)
  | .ok _ =>
    match (multipartUploadRun r finalizeOutcome).result with
    | .ok _ => (.ok (), true)
    | .error e => (.error (.uploadFailed e), true)

/-!
## Progress reporting (main.go lines 309-312)
-/

/-- One progress update, emitted after a worker records a successful part
(main.go lines 309-312): `bar.Increment()` bumps the display counter, and the
rendered ETA is
`time.Duration((numParts-partNum-1)*int(elapsed.Seconds()/float64(partNum+1))) * time.Second`.
`elapsed` (seconds since `startTime`, nonnegative) is modelled as an exact
rational; Go's `int(...)` conversion truncates, which on nonnegative values is
the floor. `partNum` is the index of the part this worker just completed. -/
structure ProgressEvent where
  counter : Nat
  etaSeconds : ℤ

/-- The progress-bar update for completed part `partNum` when the display
counter stood at `counterBefore` (main.go lines 309-312). -/
def progressUpdate (numParts counterBefore partNum : Nat) (elapsed : ℚ) : ProgressEvent :=
  { counter := counterBefore + 1,
    etaSeconds := ((numParts : ℤ) - partNum - 1) * ⌊elapsed / ((partNum : ℚ) + 1)⌋ }

/-!
## Definitions taken from the spec's words (for comparison with the code)
-/

/-- Modelled from the spec: success of a part transfer "is indicated by a
200-range status" (spec §6); used only to compare with the code's exact-200
test in `attemptPart`. -/
def specSuccessStatus (status : Nat) : Bool :=
  200 ≤ status ∧ status < 300

/-- Modelled from the spec: the estimated remaining time
"(partsRemaining) × (elapsed / partsCompletedSoFar), rounded to whole seconds"
(spec §4.4); used only to compare with the code's ETA in `progressUpdate`. -/
def specRemainingSeconds (numParts completed : Nat) (elapsed : ℚ) : ℤ :=
  round (((numParts : ℚ) - completed) * (elapsed / completed))

/-!
## Bounds of the worker pool's slice accesses (main.go lines 252-253, 303)
-/

/-- The length of the `parts` slice, `make([]Part, len(presignedURLs))`
(main.go line 239). -/
def partsSliceLen (resp : CreateMediaUploadResponse) : Nat :=
  resp.presignedURLs.length

/-- Every access the worker pool performs — `presignedURLs[partNum]`
(main.go line 253) and `parts[partNum]` (line 303) for each dispatched
`partNum` in `[0, numParts)` (lines 318-320) — is within bounds. -/
def workerAccessesInBounds (resp : CreateMediaUploadResponse) : Prop :=
  ∀ i < resp.numParts, i < resp.presignedURLs.length ∧ i < partsSliceLen resp

instance (resp : CreateMediaUploadResponse) : Decidable (workerAccessesInBounds resp) := by
  unfold workerAccessesInBounds
  infer_instance

/-!
## Helper lemmas
-/

/-- A part attempt takes the success branch exactly on an HTTP response with
status 200, and then records part number and ETag. -/
theorem attemptOk_inversion (tr : TransferResult) (n : Nat)
    (h : attemptOk tr n = true) :
    ∃ e, tr = .response 200 e ∧
      attemptPart tr n = .ok { partNumber := n + 1, etag := e } := by
  cases tr with
  | response status etag =>
    by_cases hs : status = 200
    · subst hs
      exact ⟨etag, rfl, by simp [attemptPart]⟩
    · exfalso
      simp [attemptOk, attemptPart, hs] at h
  | openError m => exfalso; simp [attemptOk, attemptPart] at h
  | seekError m => exfalso; simp [attemptOk, attemptPart] at h
  | readError m => exfalso; simp [attemptOk, attemptPart] at h
  | requestError m => exfalso; simp [attemptOk, attemptPart] at h
  | transportError m => exfalso; simp [attemptOk, attemptPart] at h

/-- The worker-pool fold never changes the length of the `parts` slice. -/
theorem applyEvents_length (transfer : Nat → TransferResult) (evs : List Nat) :
    ∀ acc : List Part × List PartError,
      (applyEvents transfer acc evs).1.length = acc.1.length := by
  induction evs with
  | nil => intro acc; rfl
  | cons i evs ih =>
    intro acc
    have h0 : applyEvents transfer acc (i :: evs) =
        applyEvents transfer (stepPart transfer acc i) evs := rfl
    rw [h0, ih]
    unfold stepPart
    cases h : attemptPart (transfer i) i <;> simp

/-- The drained error channel holds exactly the errors of the failing
attempts, in completion order. -/
theorem applyEvents_snd (transfer : Nat → TransferResult) (evs : List Nat) :
    ∀ acc : List Part × List PartError,
      (applyEvents transfer acc evs).2 = acc.2 ++ evs.filterMap (errOf transfer) := by
  induction evs with
  | nil => intro acc; simp [applyEvents]
  | cons i evs ih =>
    intro acc
    have h0 : applyEvents transfer acc (i :: evs) =
        applyEvents transfer (stepPart transfer acc i) evs := rfl
    rw [h0, ih, List.filterMap_cons]
    cases h : attemptPart (transfer i) i with
    | error e => simp [stepPart, errOf, h, List.append_assoc]
    | ok p => simp [stepPart, errOf, h]

/-- Pointwise description of the `parts` slice after the fold: an index holds
its successful part value once its attempt completed, and its previous value
otherwise. -/
theorem applyEvents_fst_getElem? (transfer : Nat → TransferResult) (evs : List Nat) :
    ∀ (acc : List Part × List PartError) (j : Nat), j < acc.1.length →
      (applyEvents transfer acc evs).1[j]? =
        if j ∈ evs ∧ attemptOk (transfer j) j = true then okPartOpt transfer j
        else acc.1[j]? := by
  induction evs with
  | nil =>
    intro acc j hj
    simp [applyEvents]
  | cons i evs ih =>
    intro acc j hj
    have h0 : applyEvents transfer acc (i :: evs) =
        applyEvents transfer (stepPart transfer acc i) evs := rfl
    have hlen : (stepPart transfer acc i).1.length = acc.1.length := by
      unfold stepPart
      cases h : attemptPart (transfer i) i <;> simp
    rw [h0, ih _ j (by omega)]
    by_cases hc : j ∈ evs ∧ attemptOk (transfer j) j = true
    · rw [if_pos hc, if_pos ⟨List.mem_cons_of_mem _ hc.1, hc.2⟩]
    · rw [if_neg hc]
      by_cases hji : j = i
      · subst hji
        by_cases hok : attemptOk (transfer j) j = true
        · rw [if_pos ⟨List.mem_cons_self _ _, hok⟩]
          obtain ⟨e, _, hap⟩ := attemptOk_inversion _ _ hok
          unfold stepPart
          rw [hap]
          simp [okPartOpt, hap, List.getElem?_set_self hj]
        · rw [if_neg (fun hcon => hok hcon.2)]
          unfold stepPart
          cases h : attemptPart (transfer j) j with
          | ok p => exfalso; apply hok; simp [attemptOk, h]
          | error e => simp
      · have hnc : ¬(j ∈ i :: evs ∧ attemptOk (transfer j) j = true) := by
          intro hcon
          rcases List.mem_cons.mp hcon.1 with h1 | h1
          · exact hji h1
          · exact hc ⟨h1, hcon.2⟩
        rw [if_neg hnc]
        unfold stepPart
        cases h : attemptPart (transfer i) i with
        | ok p => simp [List.getElem?_set_ne (Ne.symm hji)]
        | error e => simp

/-- The drained error channel of a run, characterized. -/
theorem runWorkerPhase_snd (r : Run) :
    (runWorkerPhase r).2 = r.events.filterMap (errOf r.transfer) := by
  unfold runWorkerPhase
  rw [applyEvents_snd]
  simp

/-- The `parts` slice keeps the length it was created with. -/
theorem runWorkerPhase_length (r : Run) :
    (runWorkerPhase r).1.length = r.resp.presignedURLs.length := by
  unfold runWorkerPhase
  rw [applyEvents_length]
  simp

/-!
## Claims
-/

/-- C1: in every valid execution in which at least one part transfer fails
(I/O error, request-construction error, transport error, or non-success
upload status), `multipartUpload` returns an error carrying a recorded part
error — namely the first error drained from the FIFO channel — and
`completeMultipartUpload` is never called. -/
theorem multipartUpload_partFailure_no_finalize (r : Run)
    (fin : List Part → Except String Unit) (_hv : r.Valid)
    (hfail : ∃ i ∈ r.events, attemptOk (r.transfer i) i = false) :
    ∃ e, (runWorkerPhase r).2.head? = some e ∧ e ∈ (runWorkerPhase r).2 ∧
      (multipartUploadRun r fin).result = .error (.partFailed e) ∧
      (multipartUploadRun r fin).finalizeCalledWith = none := by
  obtain ⟨i, hi, hko⟩ := hfail
  obtain ⟨e0, he0⟩ : ∃ e0, errOf r.transfer i = some e0 := by
    cases h : attemptPart (r.transfer i) i with
    | ok p => exfalso; simp [attemptOk, h] at hko
    | error e => exact ⟨e, by simp [errOf, h]⟩
  have hmem : e0 ∈ (runWorkerPhase r).2 := by
    rw [runWorkerPhase_snd]
    exact List.mem_filterMap.mpr ⟨i, hi, he0⟩
  have hne : (runWorkerPhase r).2 ≠ [] := List.ne_nil_of_mem hmem
  obtain ⟨e, es, hes⟩ := List.exists_cons_of_ne_nil hne
  refine ⟨e, ?_, ?_, ?_, ?_⟩
  · rw [hes]; rfl
  · rw [hes]; exact List.mem_cons_self _ _
  · simp [multipartUploadRun, hes]
  · simp [multipartUploadRun, hes]

/-- C1 witness: a one-part run whose only transfer returns HTTP 500. -/
theorem multipartUpload_partFailure_no_finalize_witness :
    Run.Valid { resp := { uploadID := "u", partSize := 4, numParts := 1,
                          presignedURLs := ["t1"], mediaUpload := { id := "m" } },
                transfer := fun _ => .response 500 "", events := [0] } ∧
    (∃ i ∈ ({ resp := { uploadID := "u", partSize := 4, numParts := 1,
                        presignedURLs := ["t1"], mediaUpload := { id := "m" } },
              transfer := fun _ => .response 500 "", events := [0] } : Run).events,
        attemptOk (TransferResult.response 500 "") i = false) ∧
    (∃ e, (runWorkerPhase { resp := { uploadID := "u", partSize := 4, numParts := 1,
                                      presignedURLs := ["t1"], mediaUpload := { id := "m" } },
                            transfer := fun _ => .response 500 "", events := [0] }).2.head? = some e ∧
      e ∈ (runWorkerPhase { resp := { uploadID := "u", partSize := 4, numParts := 1,
                                      presignedURLs := ["t1"], mediaUpload := { id := "m" } },
                            transfer := fun _ => .response 500 "", events := [0] }).2 ∧
      (multipartUploadRun { resp := { uploadID := "u", partSize := 4, numParts := 1,
                                      presignedURLs := ["t1"], mediaUpload := { id := "m" } },
                            transfer := fun _ => .response 500 "", events := [0] }
        (fun _ => .ok ())).result = .error (.partFailed e) ∧
      (multipartUploadRun { resp := { uploadID := "u", partSize := 4, numParts := 1,
                                      presignedURLs := ["t1"], mediaUpload := { id := "m" } },
                            transfer := fun _ => .response 500 "", events := [0] }
        (fun _ => .ok ())).finalizeCalledWith = none) :=
  ⟨by decide, by decide,
   multipartUpload_partFailure_no_finalize _ _ (by decide) (by decide)⟩

/-- C2 as stated is false on the code: the `parts` slice is sized by
`len(presignedURLs)`, not by `numParts`. A valid run with a negotiation
response carrying `numParts = 0` but one presigned URL succeeds, and the
manifest passed to the Finalizer has one zero-valued entry instead of
`numParts = 0` entries. -/
theorem multipart_success_manifest_counterexample :
    Run.Valid { resp := { uploadID := "u", partSize := 5, numParts := 0,
                          presignedURLs := ["x"], mediaUpload := { id := "m" } },
                transfer := fun _ => .response 200 "t", events := [] } ∧
    (multipartUploadRun { resp := { uploadID := "u", partSize := 5, numParts := 0,
                                    presignedURLs := ["x"], mediaUpload := { id := "m" } },
                          transfer := fun _ => .response 200 "t", events := [] }
      (fun _ => .ok ())).result = .ok () ∧
    (multipartUploadRun { resp := { uploadID := "u", partSize := 5, numParts := 0,
                                    presignedURLs := ["x"], mediaUpload := { id := "m" } },
                          transfer := fun _ => .response 200 "t", events := [] }
      (fun _ => .ok ())).finalizeCalledWith = some [defaultPart] ∧
    [defaultPart].length ≠ 0 := by
  refine ⟨by decide, by decide, by decide, by decide⟩

/-- C2 amended: for every valid successful run whose negotiation response
supplies exactly `numParts` presigned URLs, the manifest passed to the
Finalizer has exactly `numParts` entries, the entry at index `i` is
`(i + 1, ETag of part i's transfer)`, and the manifest is sorted strictly
ascending by part number with no duplicate and no missing part number. -/
theorem multipart_success_manifest (r : Run) (fin : List Part → Except String Unit)
    (hv : r.Valid) (hlen : r.resp.presignedURLs.length = r.resp.numParts)
    (hok : (multipartUploadRun r fin).result = .ok ()) :
    ∃ m, (multipartUploadRun r fin).finalizeCalledWith = some m ∧
      m.length = r.resp.numParts ∧
      m = (List.range r.resp.numParts).map
            (fun j => { partNumber := j + 1, etag := tokenOf (r.transfer j) }) ∧
      (∀ j < r.resp.numParts, ∃ e, r.transfer j = .response 200 e ∧
        m[j]? = some { partNumber := j + 1, etag := e }) ∧
      m.map Part.partNumber = (List.range r.resp.numParts).map (fun j => j + 1) ∧
      m.Pairwise (fun a b => a.partNumber < b.partNumber) := by
  obtain ⟨hnd, hbound, hle, hcomp⟩ := hv
  have herr : (runWorkerPhase r).2 = [] := by
    cases hes : (runWorkerPhase r).2.head? with
    | none => exact List.head?_eq_none_iff.mp hes
    | some e => simp [multipartUploadRun, hes] at hok
  have hallok : ∀ i ∈ r.events, attemptOk (r.transfer i) i = true := by
    intro i hi
    have hnil : r.events.filterMap (errOf r.transfer) = [] := by
      rw [← runWorkerPhase_snd]; exact herr
    have hnone := List.filterMap_eq_nil_iff.mp hnil i hi
    cases h : attemptPart (r.transfer i) i with
    | ok p => simp [attemptOk, h]
    | error e => exfalso; simp [errOf, h] at hnone
  have hall : ∀ i < r.resp.numParts, i ∈ r.events := hcomp hallok
  have hmlen : (runWorkerPhase r).1.length = r.resp.numParts := by
    rw [runWorkerPhase_length, hlen]
  have hfin : (multipartUploadRun r fin).finalizeCalledWith =
      some (runWorkerPhase r).1 := by
    cases hfo : fin (runWorkerPhase r).1 with
    | ok u => simp [multipartUploadRun, herr, hfo]
    | error s => simp [multipartUploadRun, herr, hfo]
  have hpt : ∀ j, j < r.resp.numParts → ∃ e, r.transfer j = .response 200 e ∧
      (runWorkerPhase r).1[j]? = some { partNumber := j + 1, etag := e } := by
    intro j hj
    have hjlen : j < (List.replicate r.resp.presignedURLs.length defaultPart).length := by
      simp [hlen]; omega
    have hmem : j ∈ r.events := hall j hj
    have hok' : attemptOk (r.transfer j) j = true := hallok j hmem
    obtain ⟨e, hte, hap⟩ := attemptOk_inversion _ _ hok'
    refine ⟨e, hte, ?_⟩
    unfold runWorkerPhase
    rw [applyEvents_fst_getElem? _ _ _ j hjlen]
    rw [if_pos ⟨hmem, hok'⟩]
    simp [okPartOpt, hap]
  have hrange : (runWorkerPhase r).1 = (List.range r.resp.numParts).map
      (fun j => { partNumber := j + 1, etag := tokenOf (r.transfer j) }) := by
    apply List.ext_getElem?
    intro j
    by_cases hj : j < r.resp.numParts
    · obtain ⟨e, hte, hme⟩ := hpt j hj
      rw [hme, List.getElem?_map, List.getElem?_range hj]
      simp [tokenOf, hte]
    · rw [List.getElem?_eq_none (by omega : (runWorkerPhase r).1.length ≤ j),
          List.getElem?_eq_none (by simp; omega)]
  refine ⟨(runWorkerPhase r).1, hfin, hmlen, hrange, hpt, ?_, ?_⟩
  · rw [hrange, List.map_map]
    rfl
  · rw [hrange, List.pairwise_map]
    exact (List.pairwise_lt_range _).imp (fun h => by simpa using h)

/-- C2 amended witness: a two-part run completing out of order. -/
theorem multipart_success_manifest_witness :
    Run.Valid { resp := { uploadID := "u", partSize := 4, numParts := 2,
                          presignedURLs := ["t1", "t2"], mediaUpload := { id := "m" } },
                transfer := fun i => .response 200 (if i = 0 then "ea" else "eb"),
                events := [1, 0] } ∧
    (["t1", "t2"] : List String).length = 2 ∧
    (multipartUploadRun { resp := { uploadID := "u", partSize := 4, numParts := 2,
                                    presignedURLs := ["t1", "t2"], mediaUpload := { id := "m" } },
                          transfer := fun i => .response 200 (if i = 0 then "ea" else "eb"),
                          events := [1, 0] } (fun _ => .ok ())).result = .ok () ∧
    (∃ m, (multipartUploadRun { resp := { uploadID := "u", partSize := 4, numParts := 2,
                                          presignedURLs := ["t1", "t2"],
                                          mediaUpload := { id := "m" } },
                                transfer := fun i => .response 200 (if i = 0 then "ea" else "eb"),
                                events := [1, 0] } (fun _ => .ok ())).finalizeCalledWith = some m ∧
      m.length = 2 ∧
      m = (List.range 2).map
            (fun j => { partNumber := j + 1,
                        etag := tokenOf (TransferResult.response 200 (if j = 0 then "ea" else "eb")) }) ∧
      (∀ j < 2, ∃ e, (TransferResult.response 200 (if j = 0 then "ea" else "eb") : TransferResult) =
          .response 200 e ∧ m[j]? = some { partNumber := j + 1, etag := e }) ∧
      m.map Part.partNumber = (List.range 2).map (fun j => j + 1) ∧
      m.Pairwise (fun a b => a.partNumber < b.partNumber)) :=
  ⟨by decide, by decide, by decide,
   multipart_success_manifest _ _ (by decide) (by decide) (by decide)⟩

/-- Sum of a constant function over an index range. -/
theorem sum_map_range_const (f : Nat → Nat) (c : Nat) :
    ∀ n, (∀ i < n, f i = c) → ((List.range n).map f).sum = n * c := by
  intro n
  induction n with
  | zero => intro _; simp
  | succ n ih =>
    intro h
    rw [List.range_succ, List.map_append, List.sum_append]
    rw [ih (fun i hi => h i (by omega))]
    simp [h n (by omega), Nat.succ_mul]

/-- C3: for a file of size `S ≥ 1` and part size `P ≥ 1` with
`numParts = ceil(S / P)`: part `i` starts at byte offset `i * P`; every part
before the last reads and uploads exactly `P` bytes and the last part reads
`S - (numParts - 1) * P` bytes; the actual read returns the full computed
size; consecutive parts are contiguous (disjoint, no gap), start at offset 0,
end at byte `S`, and the part lengths sum to `S` exactly. -/
theorem partGeometry_covers_file (S P np : Nat) (hS : 1 ≤ S) (hP : 1 ≤ P)
    (hnp : np = (S + P - 1) / P) :
    1 ≤ np ∧
    (∀ i < np, partOffset P i = i * P) ∧
    (∀ i, i + 1 < np → readSize S P i = P) ∧
    readSize S P (np - 1) = S - (np - 1) * P ∧
    (∀ i < np, fileReadLen S (partOffset P i) (readSize S P i) = readSize S P i) ∧
    (∀ i, i + 1 < np → partOffset P (i + 1) = partOffset P i + readSize S P i) ∧
    partOffset P 0 = 0 ∧
    partOffset P (np - 1) + readSize S P (np - 1) = S ∧
    ((List.range np).map (readSize S P)).sum = S := by
  have hdm := Nat.div_add_mod (S + P - 1) P
  have hmlt : (S + P - 1) % P < P := Nat.mod_lt _ (by omega)
  have hpos : 1 ≤ np := by
    rw [hnp]
    rw [Nat.le_div_iff_mul_le (by omega)]
    omega
  have hnpP : np * P = P * np := Nat.mul_comm _ _
  have hup : S ≤ np * P := by
    rw [hnpP, hnp]
    omega
  have hB : (np - 1) * P + P = np * P := by
    cases np with
    | zero => omega
    | succ k => simp [Nat.succ_sub_one, Nat.succ_mul]
  have hlow : (np - 1) * P < S := by
    have h1 : np * P ≤ S + P - 1 := by
      rw [hnpP, hnp]
      omega
    omega
  have hmid : ∀ i, i + 1 < np → readSize S P i = P := by
    intro i hi
    have h1 : (i + 1) * P ≤ (np - 1) * P := Nat.mul_le_mul_right _ (by omega)
    have h2 : (i + 1) * P = i * P + P := by ring
    unfold readSize partOffset
    rw [if_neg (by omega)]
  have hlast : readSize S P (np - 1) = S - (np - 1) * P := by
    unfold readSize partOffset
    split
    · rfl
    · omega
  refine ⟨hpos, fun i _ => rfl, hmid, hlast, ?_, ?_, by simp [partOffset], ?_, ?_⟩
  · intro i hi
    unfold fileReadLen readSize partOffset
    split
    · have h1 : i * P ≤ (np - 1) * P := Nat.mul_le_mul_right _ (by omega)
      omega
    · have h1 : i * P ≤ (np - 1) * P := Nat.mul_le_mul_right _ (by omega)
      omega
  · intro i hi
    have h2 : (i + 1) * P = i * P + P := by ring
    rw [hmid i hi]
    unfold partOffset
    omega
  · rw [hlast]
    unfold partOffset
    omega
  · have hone : np = (np - 1) + 1 := by omega
    rw [hone, List.range_succ, List.map_append, List.sum_append]
    rw [sum_map_range_const _ P _ (fun i hi => hmid i (by omega))]
    simp [hlast]
    omega

/-- C3 witness: a 10-byte file with part size 4 yields 3 parts of sizes 4, 4, 2. -/
theorem partGeometry_covers_file_witness :
    1 ≤ 10 ∧ 1 ≤ 4 ∧ 3 = (10 + 4 - 1) / 4 ∧
    (1 ≤ 3 ∧
    (∀ i < 3, partOffset 4 i = i * 4) ∧
    (∀ i, i + 1 < 3 → readSize 10 4 i = 4) ∧
    readSize 10 4 (3 - 1) = 10 - (3 - 1) * 4 ∧
    (∀ i < 3, fileReadLen 10 (partOffset 4 i) (readSize 10 4 i) = readSize 10 4 i) ∧
    (∀ i, i + 1 < 3 → partOffset 4 (i + 1) = partOffset 4 i + readSize 10 4 i) ∧
    partOffset 4 0 = 0 ∧
    partOffset 4 (3 - 1) + readSize 10 4 (3 - 1) = 10 ∧
    ((List.range 3).map (readSize 10 4)).sum = 10) :=
  ⟨by decide, by decide, by decide,
   partGeometry_covers_file 10 4 3 (by decide) (by decide) (by decide)⟩

/-- C4: code-bug evidence. A control-plane response with non-success status
500 whose body is a JSON-encoded string (the documented shape of API errors,
client.go line 102) makes `DoRequest` return the `APIResponse` with a nil Go
error; `CreateMediaUpload` then returns the zero-valued
`CreateMediaUploadResponse` with nil error instead of failing, and
`CompleteMultipartUpload` likewise reports success — so the upload proceeds
on a zero-valued decoded response rather than aborting. -/
theorem doRequest_swallows_non2xx_with_decodable_body :
    doRequest (.response 500 (.jsonString "internal error")) =
      .ok ({ error := "internal error", status := 500 }, zeroCreateMediaUploadResponse) ∧
    clientCreateMediaUpload (.response 500 (.jsonString "internal error")) =
      .ok zeroCreateMediaUploadResponse ∧
    clientCompleteMultipartUpload (.response 500 (.jsonString "internal error")) =
      .ok () ∧
    zeroCreateMediaUploadResponse.numParts = 0 := by
  refine ⟨by decide, by decide, by decide, by decide⟩

/-- C5 as stated is false on the code: 204 is a 200-range status, yet the
worker records a failure for it — the success test at main.go line 298 is
`resp.StatusCode != http.StatusOK`, i.e. exactly 200. -/
theorem attemptPart_rejects_204 :
    specSuccessStatus 204 = true ∧
    attemptPart (.response 204 "tok") 3 = .error (.nonOkStatus 3 204) := by
  refine ⟨by decide, by decide⟩

/-- C5 amended: a part transfer is treated as successful exactly when the PUT
response status equals 200; on success the completion token recorded for part
`partNum` is the response's ETag header, as entry `(partNum + 1, etag)`, and
any other status records a non-success-status part error. -/
theorem attemptPart_ok_iff_status200 (status : Nat) (etag : ETag) (partNum : Nat) :
    attemptPart (.response status etag) partNum =
      if status = 200 then .ok { partNumber := partNum + 1, etag := etag }
      else .error (.nonOkStatus partNum status) := by
  unfold attemptPart
  by_cases h : status = 200 <;> simp [h]

/-- C6: classification resolves the MIME type by first consulting the
extension table on the lowercased extension and sniffing only when that lookup
yields no mapping; when the 512-byte read succeeds, the file is accepted
exactly when its lowercased extension is in the extension allow-list and the
resolved MIME type is in the MIME allow-list, regardless of which detection
path supplied the MIME type. -/
theorem validateFile_classification (typeByExt : String → String) (env : FileEnv)
    (hsize : 1 ≤ env.size) :
    ((∃ m, validateFile typeByExt true env = .ok m) ↔
      (allowedExtensions.contains (toLowerGo env.rawExt) = true ∧
       allowedMIMEs.contains (resolveMime typeByExt (toLowerGo env.rawExt) env.sniffed) = true)) ∧
    (∀ m, validateFile typeByExt true env = .ok m →
      m = resolveMime typeByExt (toLowerGo env.rawExt) env.sniffed) ∧
    (typeByExt (toLowerGo env.rawExt) = "" →
      resolveMime typeByExt (toLowerGo env.rawExt) env.sniffed = env.sniffed) ∧
    (typeByExt (toLowerGo env.rawExt) ≠ "" →
      resolveMime typeByExt (toLowerGo env.rawExt) env.sniffed = typeByExt (toLowerGo env.rawExt) ∧
      ∀ s, validateFile typeByExt true { env with sniffed := s } =
        validateFile typeByExt true env) := by
  have hread : fileRead512 env.size = .ok (min env.size 512) := by
    unfold fileRead512
    rw [if_neg (by omega)]
  have hchar : ∀ fe : FileEnv, fe.size = env.size → validateFile typeByExt true fe =
      (if allowedExtensions.contains (toLowerGo fe.rawExt) = false then
         Except.error (.extNotAllowed (toLowerGo fe.rawExt))
       else if allowedMIMEs.contains (resolveMime typeByExt (toLowerGo fe.rawExt) fe.sniffed) = false then
         Except.error (.mimeNotAllowed (resolveMime typeByExt (toLowerGo fe.rawExt) fe.sniffed))
       else Except.ok (resolveMime typeByExt (toLowerGo fe.rawExt) fe.sniffed)) := by
    intro fe hfe
    simp only [validateFile, hfe, hread]
    rfl
  refine ⟨?_, ?_, ?_, ?_⟩
  · rw [hchar env rfl]
    by_cases he : toLowerGo env.rawExt ∈ allowedExtensions <;>
      by_cases hmi : resolveMime typeByExt (toLowerGo env.rawExt) env.sniffed ∈ allowedMIMEs <;>
      simp [he, hmi]
  · intro m hm
    rw [hchar env rfl] at hm
    by_cases he : toLowerGo env.rawExt ∈ allowedExtensions <;>
      by_cases hmi : resolveMime typeByExt (toLowerGo env.rawExt) env.sniffed ∈ allowedMIMEs <;>
      simp [he, hmi] at hm
    exact hm.symm
  · intro h
    unfold resolveMime
    rw [if_pos h]
  · intro h
    have hres : ∀ s, resolveMime typeByExt (toLowerGo env.rawExt) s =
        typeByExt (toLowerGo env.rawExt) := by
      intro s
      unfold resolveMime
      rw [if_neg h]
    refine ⟨hres env.sniffed, ?_⟩
    intro s
    rw [hchar { env with sniffed := s } rfl, hchar env rfl]
    simp [hres]

/-- C6 witness: an uppercase .JPG file of 100 bytes under an extension table
mapping .jpg to image/jpeg, with a sniffed type that plays no role. -/
theorem validateFile_classification_witness :
    1 ≤ (100 : Nat) ∧
    (((∃ m, validateFile (fun e => if e = ".jpg" then "image/jpeg" else "") true
        { rawExt := ".JPG", size := 100, sniffed := "application/pdf" } = .ok m) ↔
      (allowedExtensions.contains (toLowerGo ".JPG") = true ∧
       allowedMIMEs.contains (resolveMime (fun e => if e = ".jpg" then "image/jpeg" else "")
         (toLowerGo ".JPG") "application/pdf") = true)) ∧
    (∀ m, validateFile (fun e => if e = ".jpg" then "image/jpeg" else "") true
        { rawExt := ".JPG", size := 100, sniffed := "application/pdf" } = .ok m →
      m = resolveMime (fun e => if e = ".jpg" then "image/jpeg" else "")
        (toLowerGo ".JPG") "application/pdf") ∧
    ((fun e => if e = ".jpg" then "image/jpeg" else "") (toLowerGo ".JPG") = "" →
      resolveMime (fun e => if e = ".jpg" then "image/jpeg" else "")
        (toLowerGo ".JPG") "application/pdf" = "application/pdf") ∧
    ((fun e => if e = ".jpg" then "image/jpeg" else "") (toLowerGo ".JPG") ≠ "" →
      resolveMime (fun e => if e = ".jpg" then "image/jpeg" else "")
        (toLowerGo ".JPG") "application/pdf" =
        (fun e => if e = ".jpg" then "image/jpeg" else "") (toLowerGo ".JPG") ∧
      ∀ s, validateFile (fun e => if e = ".jpg" then "image/jpeg" else "") true
          { rawExt := ".JPG", size := 100, sniffed := s } =
        validateFile (fun e => if e = ".jpg" then "image/jpeg" else "") true
          { rawExt := ".JPG", size := 100, sniffed := "application/pdf" })) :=
  ⟨by decide,
   validateFile_classification (fun e => if e = ".jpg" then "image/jpeg" else "")
     { rawExt := ".JPG", size := 100, sniffed := "application/pdf" } (by decide)⟩

/-- C7 as stated is false on the code: with `numParts = 0` but a nonempty
presigned-URL list, no part error is recorded, yet the Finalizer receives a
one-entry zero-valued parts list rather than an empty one, because the
manifest is sized by `len(presignedURLs)`. -/
theorem multipart_zeroParts_counterexample :
    Run.Valid { resp := { uploadID := "u", partSize := 5, numParts := 0,
                          presignedURLs := ["y"], mediaUpload := { id := "m" } },
                transfer := fun _ => .response 200 "t", events := [] } ∧
    (runWorkerPhase { resp := { uploadID := "u", partSize := 5, numParts := 0,
                                presignedURLs := ["y"], mediaUpload := { id := "m" } },
                      transfer := fun _ => .response 200 "t", events := [] }).2 = [] ∧
    (multipartUploadRun { resp := { uploadID := "u", partSize := 5, numParts := 0,
                                    presignedURLs := ["y"], mediaUpload := { id := "m" } },
                          transfer := fun _ => .response 200 "t", events := [] }
      (fun _ => .ok ())).finalizeCalledWith = some [defaultPart] ∧
    ¬ (multipartUploadRun { resp := { uploadID := "u", partSize := 5, numParts := 0,
                                      presignedURLs := ["y"], mediaUpload := { id := "m" } },
                            transfer := fun _ => .response 200 "t", events := [] }
      (fun _ => .ok ())).finalizeCalledWith = some [] := by
  refine ⟨by decide, by decide, by decide, by decide⟩

/-- C7 amended: if negotiation returns `numParts = 0` and an empty
presigned-URL list, the worker pool trivially succeeds — no part error is
recorded — and the Finalizer is called exactly once, with an empty parts
list. -/
theorem multipart_zeroParts_empty_manifest (r : Run)
    (fin : List Part → Except String Unit) (hv : r.Valid)
    (hz : r.resp.numParts = 0) (hu : r.resp.presignedURLs = []) :
    (runWorkerPhase r).2 = [] ∧
    (multipartUploadRun r fin).finalizeCalledWith = some [] := by
  obtain ⟨hnd, hbound, hle, hcomp⟩ := hv
  have hev : r.events = [] := by
    cases hevs : r.events with
    | nil => rfl
    | cons a l =>
      exfalso
      have := hbound a (by rw [hevs]; exact List.mem_cons_self _ _)
      omega
  have hwp : runWorkerPhase r = ([], []) := by
    unfold runWorkerPhase
    rw [hev, hu]
    rfl
  constructor
  · rw [hwp]
  · unfold multipartUploadRun
    rw [hwp]
    cases hfo : fin [] with
    | ok u => simp [hfo]
    | error s => simp [hfo]

/-- C7 amended witness: a zero-part negotiation response with no URLs. -/
theorem multipart_zeroParts_empty_manifest_witness :
    Run.Valid { resp := { uploadID := "u", partSize := 4, numParts := 0,
                          presignedURLs := [], mediaUpload := { id := "m" } },
                transfer := fun _ => .response 200 "t", events := [] } ∧
    (runWorkerPhase { resp := { uploadID := "u", partSize := 4, numParts := 0,
                                presignedURLs := [], mediaUpload := { id := "m" } },
                      transfer := fun _ => .response 200 "t", events := [] }).2 = [] ∧
    (multipartUploadRun { resp := { uploadID := "u", partSize := 4, numParts := 0,
                                    presignedURLs := [], mediaUpload := { id := "m" } },
                          transfer := fun _ => .response 200 "t", events := [] }
      (fun _ => .ok ())).finalizeCalledWith = some [] :=
  ⟨by decide,
   (multipart_zeroParts_empty_manifest
     { resp := { uploadID := "u", partSize := 4, numParts := 0,
                 presignedURLs := [], mediaUpload := { id := "m" } },
       transfer := fun _ => .response 200 "t", events := [] }
     (fun _ => Except.ok ()) (by decide) (by decide) (by decide)).1,
   (multipart_zeroParts_empty_manifest
     { resp := { uploadID := "u", partSize := 4, numParts := 0,
                 presignedURLs := [], mediaUpload := { id := "m" } },
       transfer := fun _ => .response 200 "t", events := [] }
     (fun _ => Except.ok ()) (by decide) (by decide) (by decide)).2⟩

/-- C8 as stated is false on the code: for the first completed part (index 0)
of 3 at elapsed 1.5 s, the code renders 2 x floor(1.5) = 2 s, while
(partsRemaining) x (elapsed / partsCompletedSoFar) rounded to whole seconds
is round(2 x 1.5) = 3 s — the code truncates the per-part average before
multiplying. -/
theorem progressUpdate_eta_ne_spec :
    (progressUpdate 3 0 0 (3 / 2)).etaSeconds = 2 ∧
    specRemainingSeconds 3 1 (3 / 2) = 3 ∧
    (progressUpdate 3 0 0 (3 / 2)).etaSeconds ≠ specRemainingSeconds 3 1 (3 / 2) := by
  norm_num [progressUpdate, specRemainingSeconds]

/-- C8 amended: each part-completion event increments the display counter by
one (so it is strictly monotone), and the rendered ETA equals
`(numParts - partNum - 1) * floor(elapsed / (partNum + 1))` seconds, where
`partNum` is the index of the part that just completed; this agrees with the
spec's `(partsRemaining) * (elapsed / partsCompletedSoFar)` rounded to whole
seconds exactly in the situations where parts complete in index order (so the
completed count is `partNum + 1`) and the per-part average is a whole number
of seconds. -/
theorem progressUpdate_counter_and_eta (numParts counterBefore partNum k : Nat)
    (elapsed : ℚ) (_hlt : partNum < numParts)
    (hk : elapsed = ((partNum : ℚ) + 1) * k) :
    (progressUpdate numParts counterBefore partNum elapsed).counter = counterBefore + 1 ∧
    counterBefore < (progressUpdate numParts counterBefore partNum elapsed).counter ∧
    (progressUpdate numParts counterBefore partNum elapsed).etaSeconds =
      ((numParts : ℤ) - partNum - 1) * k ∧
    (progressUpdate numParts counterBefore partNum elapsed).etaSeconds =
      specRemainingSeconds numParts (partNum + 1) elapsed := by
  have hne : ((partNum : ℚ) + 1) ≠ 0 := by positivity
  have hdiv : elapsed / ((partNum : ℚ) + 1) = (k : ℚ) := by
    rw [hk]
    exact mul_div_cancel_left₀ _ hne
  have heta : (progressUpdate numParts counterBefore partNum elapsed).etaSeconds =
      ((numParts : ℤ) - partNum - 1) * k := by
    show ((numParts : ℤ) - partNum - 1) * ⌊elapsed / ((partNum : ℚ) + 1)⌋ = _
    rw [hdiv, Int.floor_natCast]
  refine ⟨rfl, Nat.lt_succ_self _, heta, ?_⟩
  rw [heta]
  unfold specRemainingSeconds
  have hcast : ((partNum + 1 : ℕ) : ℚ) = (partNum : ℚ) + 1 := by
    push_cast
    ring
  rw [hcast, hdiv]
  have hval : ((numParts : ℚ) - ((partNum : ℚ) + 1)) * (k : ℚ) =
      ((((numParts : ℤ) - partNum - 1) * k : ℤ) : ℚ) := by
    push_cast
    ring
  rw [hval, round_intCast]

/-- C8 amended witness: the second part (index 1) of 6 completes in order at
elapsed 4 s; the per-part average is the whole number 2 s. -/
theorem progressUpdate_counter_and_eta_witness :
    1 < 6 ∧ (4 : ℚ) = ((1 : ℚ) + 1) * (2 : Nat) ∧
    ((progressUpdate 6 3 1 4).counter = 3 + 1 ∧
     3 < (progressUpdate 6 3 1 4).counter ∧
     (progressUpdate 6 3 1 4).etaSeconds = ((6 : ℤ) - 1 - 1) * (2 : Nat) ∧
     (progressUpdate 6 3 1 4).etaSeconds = specRemainingSeconds 6 (1 + 1) 4) :=
  ⟨by norm_num, by norm_num,
   progressUpdate_counter_and_eta 6 3 1 2 4 (by norm_num) (by norm_num)⟩

/-- C9: a zero-byte file with an allowed extension fails local validation at
the 512-byte content-sniff read — the read returns end-of-file, a fatal read
error — before any network call is made; files of 1 to 511 bytes pass this
read in full, and a nonempty file is never rejected with a read error. -/
theorem uploadCmd_zeroByte_rejected_before_network (typeByExt : String → String)
    (env : FileEnv) (r : Run) (fin : List Part → Except String Unit)
    (hext : allowedExtensions.contains (toLowerGo env.rawExt) = true)
    (hz : env.size = 0) :
    validateFile typeByExt true env = .error (.readFailed "EOF") ∧
    uploadCmdRun typeByExt true env r fin = (.error (.readFailed "EOF"), false) ∧
    (∀ env' : FileEnv, 1 ≤ env'.size → env'.size ≤ 511 →
      fileRead512 env'.size = .ok env'.size) ∧
    (∀ (present : Bool) (env' : FileEnv), 1 ≤ env'.size →
      ∀ m, validateFile typeByExt present env' ≠ .error (.readFailed m)) := by
  have hval : validateFile typeByExt true env = .error (.readFailed "EOF") := by
    have hbad : fileRead512 env.size = .error "EOF" := by
      unfold fileRead512
      rw [if_pos hz]
    simp only [validateFile, hext, hbad]
    rfl
  refine ⟨hval, ?_, ?_, ?_⟩
  · unfold uploadCmdRun
    rw [hval]
  · intro env' h1 h2
    unfold fileRead512
    rw [if_neg (by omega)]
    rw [Nat.min_eq_left (by omega)]
  · intro present env' hs m
    have hread' : fileRead512 env'.size = .ok (min env'.size 512) := by
      unfold fileRead512
      rw [if_neg (by omega)]
    cases present with
    | false => simp [validateFile]
    | true =>
      by_cases he : toLowerGo env'.rawExt ∈ allowedExtensions <;>
        by_cases hmi : resolveMime typeByExt (toLowerGo env'.rawExt) env'.sniffed ∈ allowedMIMEs <;>
        simp [validateFile, hread', he, hmi]

/-- C9 witness: an empty .mp4 file, with an extension table that has no
mapping for it. -/
theorem uploadCmd_zeroByte_rejected_before_network_witness :
    allowedExtensions.contains (toLowerGo ".mp4") = true ∧
    (0 : Nat) = 0 ∧
    (validateFile (fun _ => "") true { rawExt := ".mp4", size := 0, sniffed := "video/mp4" } =
      .error (.readFailed "EOF") ∧
    uploadCmdRun (fun _ => "") true { rawExt := ".mp4", size := 0, sniffed := "video/mp4" }
      { resp := { uploadID := "", partSize := 0, numParts := 0, presignedURLs := [],
                  mediaUpload := { id := "" } },
        transfer := fun _ => .response 200 "", events := [] }
      (fun _ => .ok ()) = (.error (.readFailed "EOF"), false) ∧
    (∀ env' : FileEnv, 1 ≤ env'.size → env'.size ≤ 511 →
      fileRead512 env'.size = .ok env'.size) ∧
    (∀ (present : Bool) (env' : FileEnv), 1 ≤ env'.size →
      ∀ m, validateFile (fun _ => "") present env' ≠ .error (.readFailed m))) :=
  ⟨by decide, rfl,
   uploadCmd_zeroByte_rejected_before_network (fun _ => "")
     { rawExt := ".mp4", size := 0, sniffed := "video/mp4" }
     { resp := { uploadID := "", partSize := 0, numParts := 0, presignedURLs := [],
                 mediaUpload := { id := "" } },
       transfer := fun _ => .response 200 "", events := [] }
     (fun _ => .ok ()) (by decide) rfl⟩

/-- C10: the worker pool's accesses `presignedURLs[partNum]` and
`parts[partNum]` over the dispatched range are all in bounds exactly when
`numParts <= len(presignedURLs)`, and nothing establishes that precondition:
the negotiation client accepts a decoded response that violates it. -/
theorem workerAccesses_inBounds_iff :
    (∀ resp : CreateMediaUploadResponse,
      workerAccessesInBounds resp ↔ resp.numParts ≤ resp.presignedURLs.length) ∧
    (∃ ex r, clientCreateMediaUpload ex = .ok r ∧ ¬ workerAccessesInBounds r) := by
  constructor
  · intro resp
    unfold workerAccessesInBounds partsSliceLen
    constructor
    · intro h
      by_contra hlt
      push_neg at hlt
      have h2 := h resp.presignedURLs.length hlt
      omega
    · intro h i hi
      exact ⟨by omega, by omega⟩
  · exact ⟨.response 200 (.jsonUploadResp
      { uploadID := "u", partSize := 1, numParts := 5, presignedURLs := [],
        mediaUpload := { id := "m" } }),
      { uploadID := "u", partSize := 1, numParts := 5, presignedURLs := [],
        mediaUpload := { id := "m" } },
      by decide, by decide⟩

end ReelTube
